import Mathlib

/-!
Verification development for the `predict` task codels of the arucotag
component (`src/codels/arucotag_predict_codels.cc`).

Modelling conventions:
* `float`/`double` arithmetic is idealised as exact rational arithmetic (`ℚ`);
  every claim settled here is about the algebraic structure of the computation
  and not about rounding.
* `cv::Mat` values of fixed shape become Mathlib matrices over `ℚ`; the
  possibly-empty per-marker state Mat becomes `Option Vec3`.
* `cv::setIdentity(m, Scalar::all(1e-3))` on the freshly declared covariance is
  modelled as producing the 3×3 diagonal with entries `1/1000`.
* external library calls (`cv::Rodrigues`, `gettimeofday`, trigonometric
  functions, and the aio completion status) are inputs of the step functions.
* matrix inversion (`cv::Mat::inv`) is modelled by the exact adjugate formula
  `inv3`, which coincides with Mathlib's `Matrix.inv` over a field.
-/

open scoped Matrix

abbrev Vec3 := Fin 3 → ℚ
abbrev Vec6 := Fin 6 → ℚ
abbrev Mat3 := Matrix (Fin 3) (Fin 3) ℚ
abbrev Mat23 := Matrix (Fin 2) (Fin 3) ℚ
abbrev Mat26 := Matrix (Fin 2) (Fin 6) ℚ
abbrev Mat36 := Matrix (Fin 3) (Fin 6) ℚ
abbrev Mat66 := Matrix (Fin 6) (Fin 6) ℚ
abbrev Mat83 := Matrix (Fin 8) (Fin 3) ℚ

/-- Exact 3×3 matrix inverse by determinant and adjugate; models
`cv::Mat::inv()` on the (idealised) rationals. -/
def inv3 (A : Mat3) : Mat3 := (A.det)⁻¹ • A.adjugate


/-- State of one `cv::KalmanFilter` as used by the codel (3 state dims,
3 measurement dims, 6 control dims). -/
structure KF where
  statePre : Vec3
  statePost : Vec3
  errorCovPre : Mat3
  errorCovPost : Mat3
  transitionMatrix : Mat3
  controlMatrix : Mat36
  measurementMatrix : Mat3
  processNoiseCov : Mat3
  measurementNoiseCov : Mat3
  gain : Mat3

/-- OpenCV `KalmanFilter::predict(control)`: `statePre = F·statePost + B·u`,
`errorCovPre = F·P·Fᵀ + Q`, then the pre values are copied onto the post
slots and `statePre` is returned. -/
def kfPredict (kf : KF) (u : Vec6) : KF × Vec3 :=
  let pre := kf.transitionMatrix.mulVec kf.statePost + kf.controlMatrix.mulVec u
  let P := kf.transitionMatrix * kf.errorCovPost * kf.transitionMatrixᵀ + kf.processNoiseCov
  ({ kf with statePre := pre, statePost := pre, errorCovPre := P, errorCovPost := P }, pre)

/-- OpenCV `KalmanFilter::correct(z)` with the linear-solve idealised as an
exact inverse: gain `K = P·Hᵀ·(H·P·Hᵀ + R)⁻¹`, `statePost = statePre +
K·(z − H·statePre)`, `errorCovPost = P − K·H·P`; returns `statePost`. -/
def kfCorrect (kf : KF) (z : Vec3) : KF × Vec3 :=
  let S := kf.measurementMatrix * kf.errorCovPre * kf.measurementMatrixᵀ + kf.measurementNoiseCov
  let Kg := kf.errorCovPre * kf.measurementMatrixᵀ * inv3 S
  let post := kf.statePre + Kg.mulVec (z - kf.measurementMatrix.mulVec kf.statePre)
  let Pp := kf.errorCovPre - Kg * (kf.measurementMatrix * kf.errorCovPre)
  ({ kf with statePost := post, gain := Kg, errorCovPost := Pp }, post)

/-- One tracked marker (`struct tag`): identifier, possibly-empty filtered
camera-frame position, and the embedded Kalman filter. -/
structure Tag where
  id : Int
  state : Option Vec3
  kf : KF

/-- The shared predictor state (`arucotag_predictor`). `meas` is the batch of
6×1 measurement Mats (camera-frame translation stacked over the Rodrigues
rotation vector), parallel to `new_detections`. -/
structure Predictor where
  C_T_B : Mat66
  filters : List Tag
  new_detections : List Int
  meas : List Vec6

/-- Static calibration data (`arucotag_calib`). -/
structure Calib where
  B_t_C : Vec3
  B_R_C : Mat3
  K : Mat3

/-- Component constants: marker side length (`length` parameter of
`predict_main`) and the task period in milliseconds
(`arucotag_predict_period`). -/
structure Config where
  length : ℚ
  period : ℚ

/-- Decoded odometry sample (`drone->data(self)` when the read succeeds). -/
structure DroneData where
  vel : Vec3
  avel : Vec3
  pos : Vec3
  qw : ℚ
  qx : ℚ
  qy : ℚ
  qz : ℚ
  vel_cov : Fin 6 → ℚ
  avel_cov : Fin 6 → ℚ

/-- Per-period external inputs of `predict_main`: the reset flag, the odometry
port content (`none` when `read` fails or no data is present), the OpenCV
Rodrigues conversion, and the wall clock sampled by `gettimeofday`. -/
structure MainInputs where
  reset : Bool
  drone : Option DroneData
  rodrigues : Vec3 → Mat3
  sec : Int
  usec : Int

/-- One element written to the `pose` outport: key (decimal string of the
marker id), world-frame position and capture timestamp. -/
structure PoseOut where
  key : String
  pos : Vec3
  sec : Int
  nsec : Int

/-- Events a codel can yield. -/
inductive GenomEvent where
  | pause_wait
  | pause_main
  | log_ev
  | main_ev
  deriving DecidableEq

/-- Quaternion to rotation matrix, transcribed from lines 162–166 of
`predict_main`. -/
def quatToRot (qw qx qy qz : ℚ) : Mat3 :=
  !![1 - 2*qy*qy - 2*qz*qz,     2*qx*qy - 2*qz*qw,     2*qx*qz + 2*qy*qw;
         2*qx*qy + 2*qz*qw, 1 - 2*qx*qx - 2*qz*qz,     2*qy*qz - 2*qx*qw;
         2*qx*qz - 2*qy*qw,     2*qy*qz + 2*qx*qw, 1 - 2*qx*qx - 2*qy*qy]

/-- Assemble a 6×6 matrix from four 3×3 blocks. -/
def block66 (A B C D : Mat3) : Mat66 :=
  Matrix.of fun i j =>
    if h1 : (i : Nat) < 3 then
      if h2 : (j : Nat) < 3 then A ⟨i, h1⟩ ⟨j, h2⟩
      else B ⟨i, h1⟩ ⟨(j : Nat) - 3, by have := j.isLt; omega⟩
    else
      if h2 : (j : Nat) < 3 then C ⟨(i : Nat) - 3, by have := i.isLt; omega⟩ ⟨j, h2⟩
      else D ⟨(i : Nat) - 3, by have := i.isLt; omega⟩ ⟨(j : Nat) - 3, by have := j.isLt; omega⟩

/-- Raw control vector read off the odometry sample. -/
def rawControl (d : DroneData) : Vec6 :=
  ![d.vel 0, d.vel 1, d.vel 2, d.avel 0, d.avel 1, d.avel 2]

/-- World-to-body twist transform `B_T_W` (identity off-diagonal blocks are
zero; the diagonal blocks hold `W_R_B`ᵀ), lines 167–170. -/
def bTWOf (d : DroneData) : Mat66 :=
  block66 (quatToRot d.qw d.qx d.qy d.qz)ᵀ 0 0 (quatToRot d.qw d.qx d.qy d.qz)ᵀ

/-- Control input actually fed to every filter this period: zero when no
odometry is available, otherwise `C_T_B · B_T_W · u` (lines 124–172). -/
def ctrlOf (pred : Predictor) (d : Option DroneData) : Vec6 :=
  match d with
  | none => 0
  | some dr => pred.C_T_B.mulVec ((bTWOf dr).mulVec (rawControl dr))

/-- Transcription of the `Q_v` / `Q_w` unpacking at lines 177–186, including
the source's literal index pattern `(vc0 vc1 vc3 / vc1 vc2 vc2 / vc3 vc4 vc5)`. -/
def unpackCode (c : Fin 6 → ℚ) : Mat3 :=
  !![c 0, c 1, c 3;
     c 1, c 2, c 2;
     c 3, c 4, c 5]

/-- The symmetric unpacking of a 6-entry packed 3×3 covariance
`(xx, xy, yy, xz, yz, zz)`; this follows the spec's description of the packed
input, for comparison with `unpackCode`. -/
def symUnpack (c : Fin 6 → ℚ) : Mat3 :=
  !![c 0, c 1, c 3;
     c 1, c 2, c 4;
     c 3, c 4, c 5]

/-- Process covariance used for prediction this period: fixed default diagonal
`1e-3` when no odometry, else `Q_v + Q_w` (lines 131 and 174–187). -/
def procCovOf (d : Option DroneData) : Mat3 :=
  match d with
  | none => Matrix.diagonal fun _ => (1 : ℚ)/1000
  | some dr => unpackCode dr.vel_cov + unpackCode dr.avel_cov

/-- World-to-body rotation used for publishing: `Mat::zeros(3,3)` when no
odometry (line 129), else the quaternion rotation. -/
def wRotOf (d : Option DroneData) : Mat3 :=
  match d with
  | none => 0
  | some dr => quatToRot dr.qw dr.qx dr.qy dr.qz

/-- World-frame body position used for publishing: zero when no odometry
(line 130), else the odometry position. -/
def wPosOf (d : Option DroneData) : Vec3 :=
  match d with
  | none => 0
  | some dr => dr.pos

/-- Position-dependent control matrix rebuilt each period for a tracking
filter (lines 217–225). -/
def ctrlMat (dt x y z : ℚ) : Mat36 :=
  !![-dt,   0,   0,     0, -dt*z,  dt*y;
       0, -dt,   0,  dt*z,     0, -dt*x;
       0,   0, -dt, -dt*y,  dt*x,     0]

/-- Index of the corner block a row of the stacked Jacobian belongs to. -/
def cIdx (r : Fin 8) : Fin 4 := ⟨r.val / 2, by have := r.isLt; omega⟩

/-- Row within the 2-row block of the stacked Jacobian. -/
def rIdx (r : Fin 8) : Fin 2 := ⟨r.val % 2, by have := r.isLt; omega⟩

/-- Embedding of the three translational columns into the six pose columns. -/
def embed3 (c : Fin 3) : Fin 6 := ⟨c.val, by have := c.isLt; omega⟩

/-- The i-th marker corner, `(±length/2, ±length/2, 0)` (lines 246–251). -/
def corner (len : ℚ) (i : Fin 4) : Vec3 :=
  ![(![-1, 1, 1, -1] : Fin 4 → ℚ) i * (len/2), (![-1, -1, 1, 1] : Fin 4 → ℚ) i * (len/2), 0]

/-- Skew-symmetric matrix of a 3-vector (lines 266–270). -/
def skew3 (v : Vec3) : Mat3 :=
  !![0, -(v 2), v 1;
     v 2, 0, -(v 0);
     -(v 1), v 0, 0]

/-- Projected homogeneous coordinates of a corner: `h = K·(R·c + t)`
(line 255). -/
def hVec (K R : Mat3) (t : Vec3) (ci : Vec3) : Vec3 :=
  K.mulVec (R.mulVec ci + t)

/-- Jacobian of the pixelization (division by depth), lines 257–260. -/
def jPix (h : Vec3) : Mat23 :=
  !![1 / h 2, 0, -(h 0) / h 2 / h 2;
     0, 1 / h 2, -(h 1) / h 2 / h 2]

/-- Jacobian of the projection with respect to the 6-DoF pose: left 3×3 block
is `K`, right block is `−K·R·skew(c)` (lines 262–271). -/
def jProj (K R : Mat3) (ci : Vec3) : Mat36 :=
  Matrix.of fun r c =>
    if h : (c : Nat) < 3 then K r ⟨c, h⟩
    else (-(K * R * skew3 ci)) r ⟨(c : Nat) - 3, by have := c.isLt; omega⟩

/-- Full chain-rule Jacobian of one corner's pixel position with respect to
the pose (line 273). -/
def jFull (K R : Mat3) (t : Vec3) (ci : Vec3) : Mat26 :=
  jPix (hVec K R t ci) * jProj K R ci

/-- The 8×3 stacked Jacobian `J`: rows `2i, 2i+1` hold the translational
columns of corner `i`'s chain-rule Jacobian (lines 245–275). -/
def codeJ (K : Mat3) (len : ℚ) (t : Vec3) (R : Mat3) : Mat83 :=
  Matrix.of fun r c => jFull K R t (corner len (cIdx r)) (rIdx r) (embed3 c)

/-- Measurement covariance assigned before each correction:
`σ_p²·(Jᵀ·J)⁻¹` with `σ_p = 3` (lines 242–278). -/
def measCov (K : Mat3) (len : ℚ) (t : Vec3) (R : Mat3) : Mat3 :=
  (9 : ℚ) • inv3 ((codeJ K len t R)ᵀ * codeJ K len t R)

/-- Translation rows 0–2 of a 6×1 measurement Mat (`Rect(0,0,1,3)`). -/
def transOf (m : Vec6) : Vec3 := ![m 0, m 1, m 2]

/-- Rotation rows 3–5 of a 6×1 measurement Mat (`Rect(0,3,1,3)`). -/
def rotOf (m : Vec6) : Vec3 := ![m 3, m 4, m 5]

/-- Per-period context computed once at the top of `predict_main` and shared
by every filter iteration. -/
structure Ctx where
  nostate : Bool
  control : Vec6
  processCov : Mat3
  wR : Mat3
  wT : Vec3
  dt : ℚ
  nds : List Int
  meas : List Vec6
  rodr : Vec3 → Mat3
  K : Mat3
  len : ℚ
  bRC : Mat3
  bTC : Vec3
  sec : Int
  usec : Int

/-- Context assembled from the codel arguments (lines 123–188 plus the loop
invariant reads). -/
def mkCtx (cfg : Config) (calib : Calib) (inp : MainInputs) (pred : Predictor) : Ctx :=
  { nostate := inp.drone.isNone
    control := ctrlOf pred inp.drone
    processCov := procCovOf inp.drone
    wR := wRotOf inp.drone
    wT := wPosOf inp.drone
    dt := cfg.period / 1000
    nds := pred.new_detections
    meas := pred.meas
    rodr := inp.rodrigues
    K := calib.K
    len := cfg.length
    bRC := calib.B_R_C
    bTC := calib.B_t_C
    sec := inp.sec
    usec := inp.usec }

/-- Body of the per-filter loop of `predict_main` (lines 190–301): lazy
initialization on the first new detection, otherwise predict (with the
state-dependent control matrix when odometry is present) and correct when a
new detection exists, then publish when the state is non-empty. -/
def procFilter (c : Ctx) (f : Tag) : Tag × Option PoseOut :=
  let j? := c.nds.findIdx? (fun d => d == f.id)
  let f' :=
    match f.state with
    | none =>
      match j? with
      | some j =>
        let t := transOf (c.meas.getD j 0)
        { f with state := some t, kf := { f.kf with statePre := t, statePost := t } }
      | none => f
    | some st =>
      let kf0 := if c.nostate then f.kf
                 else { f.kf with controlMatrix := ctrlMat c.dt (st 0) (st 1) (st 2) }
      let kf1 := { kf0 with processNoiseCov := c.processCov }
      let pr := kfPredict kf1 c.control
      let fp := { f with kf := pr.1, state := some pr.2 }
      match j? with
      | some j =>
        let m := c.meas.getD j 0
        let tM := transOf m
        let rM := c.rodr (rotOf m)
        let kf3 := { fp.kf with measurementNoiseCov := measCov c.K c.len tM rM }
        let co := kfCorrect kf3 tM
        { fp with kf := co.1, state := some co.2 }
      | none => fp
  let out := f'.state.map fun s =>
    { key := toString f'.id
      pos := c.wR.mulVec (c.bRC.mulVec s + c.bTC) + c.wT
      sec := c.sec
      nsec := c.usec * 1000 : PoseOut }
  (f', out)

/-- Result of one `predict_main` execution. -/
structure MainOut where
  pred : Predictor
  outs : List PoseOut
  ev : GenomEvent

/-- The `predict_main` codel (lines 116–310): bail out on reset, otherwise
process every filter in order, clear the pending detections, and yield to the
log codel exactly when some filter state is non-empty. -/
def predictMain (cfg : Config) (calib : Calib) (inp : MainInputs) (pred : Predictor) : MainOut :=
  if inp.reset then ⟨pred, [], GenomEvent.pause_wait⟩
  else
    let c := mkCtx cfg calib inp pred
    let results := pred.filters.map (procFilter c)
    let fs' := results.map Prod.fst
    let outs := results.filterMap Prod.snd
    let pred' := { pred with filters := fs', new_detections := [] }
    let ev := if fs'.any (fun f => f.state.isSome) then GenomEvent.log_ev
              else GenomEvent.pause_main
    ⟨pred', outs, ev⟩

/-- Abstract trigonometric oracle standing for the C library `cos`/`sin`
used when building the extrinsic rotation. -/
structure TrigO where
  cosQ : ℚ → ℚ
  sinQ : ℚ → ℚ

/-- Extrinsics port payload. -/
structure ExtrData where
  tx : ℚ
  ty : ℚ
  tz : ℚ
  roll : ℚ
  pitch : ℚ
  yaw : ℚ

/-- Roll/pitch/yaw rotation, transcribed from lines 72–76 of `predict_wait`. -/
def rpyToRot (tr : TrigO) (r p y : ℚ) : Mat3 :=
  !![tr.cosQ p * tr.cosQ y, tr.sinQ r * tr.sinQ p * tr.cosQ y - tr.cosQ r * tr.sinQ y,
       tr.cosQ r * tr.sinQ p * tr.cosQ y + tr.sinQ r * tr.sinQ y;
     tr.cosQ p * tr.sinQ y, tr.sinQ r * tr.sinQ p * tr.sinQ y + tr.cosQ r * tr.cosQ y,
       tr.cosQ r * tr.sinQ p * tr.sinQ y - tr.sinQ r * tr.cosQ y;
     -(tr.sinQ p), tr.sinQ r * tr.cosQ p, tr.cosQ r * tr.cosQ p]

/-- Skew matrix of the extrinsic translation (lines 82–86). -/
def skewT (tx ty tz : ℚ) : Mat3 :=
  !![0, -tz, ty;
     tz, 0, -tx;
     -ty, tx, 0]

/-- Result of one `predict_wait` execution. -/
structure WaitOut where
  calib : Calib
  pred : Predictor
  reset : Bool
  ev : GenomEvent

/-- The `predict_wait` codel (lines 56–108): once extrinsics are readable and
at least one detection is pending, install the static calibration and the
body-to-camera twist transform and yield to main; otherwise clear the reset
flag and keep pausing. -/
def predictWait (tr : TrigO) (extr : Option ExtrData) (calib : Calib)
    (pred : Predictor) (reset : Bool) : WaitOut :=
  match extr with
  | some e =>
    if pred.new_detections.length ≠ 0 then
      let bRC := rpyToRot tr e.roll e.pitch e.yaw
      let calib' := { calib with B_t_C := ![e.tx, e.ty, e.tz], B_R_C := bRC }
      let ctb := block66 bRCᵀ (skewT e.tx e.ty e.tz) 0 bRCᵀ
      ⟨calib', { pred with C_T_B := ctb }, reset, GenomEvent.main_ev⟩
    else ⟨calib, pred, false, GenomEvent.pause_wait⟩
  | none => ⟨calib, pred, false, GenomEvent.pause_wait⟩

/-- Newline string used as the blank-line gap marker. -/
def nlStr : String := "\n"

/-- The empty string. -/
def emptyStr : String := ""

/-- One formatted log line `<sec> <nsec> <id> <flag> <x> <y> <z>\n`.
Modelled from the spec: the format string `arucotag_log_fmt` lives in a
header that is not part of the available source; the spec fixes the field
order and the fixed flag value 1, and numeric rendering is abstracted by
`toString`. -/
def logLine (sec nsec : Int) (id : Int) (flag : Nat) (p : Vec3) : String :=
  toString sec ++ " " ++ toString nsec ++ " " ++ toString id ++ " " ++
    toString flag ++ " " ++ toString (p 0) ++ " " ++ toString (p 1) ++ " " ++
    toString (p 2) ++ nlStr

/-- Number of characters of a string (the log lines are ASCII, so this is the
byte count returned by `snprintf`). -/
def strLen (s : String) : Nat := s.data.length

/-- First `n` characters of a string; models writing only the first
`aio_nbytes` bytes of the persistent buffer. -/
def strTake (s : String) (n : Nat) : String := ⟨s.data.take n⟩

/-- Concatenation of the formatted lines of the non-empty filters, in storage
order, each with the blank-line gap marker when `skipped` is set. -/
def joinL (skipped : Bool) (sec nsec : Int) (fs : List Tag) : String :=
  match fs with
  | [] => emptyStr
  | f :: rest =>
    match f.state with
    | none => joinL skipped sec nsec rest
    | some s => ((if skipped then nlStr else emptyStr) ++ logLine sec nsec f.id 1 s)
        ++ joinL skipped sec nsec rest

/-- The buffer-building loop of `predict_log` (lines 352–369): `snprintf`
each non-empty filter's line into a scratch buffer, `strcpy` onto the
persistent buffer at loop index 0 and `strcat` otherwise, while accumulating
`aio_nbytes`. -/
def buildAux (skipped : Bool) (sec nsec : Int) (i : Nat) (fs : List Tag)
    (buf : String) (n : Nat) : String × Nat :=
  match fs with
  | [] => (buf, n)
  | f :: rest =>
    match f.state with
    | none => buildAux skipped sec nsec (i+1) rest buf n
    | some s =>
      let line := (if skipped then nlStr else emptyStr) ++ logLine sec nsec f.id 1 s
      buildAux skipped sec nsec (i+1) rest (if i = 0 then line else buf ++ line)
        (n + strLen line)

/-- The logger state (`arucotag_log_s`): aio file descriptor (negative once
logging is disabled), cycle counter, decimation factor, pending/skipped
flags, missed-write counter, persistent line buffer and `aio_nbytes`. -/
structure LogState where
  fildes : Int
  total : Nat
  decimation : Nat
  pending : Bool
  skipped : Bool
  missed : Nat
  buffer : String
  nbytes : Nat

/-- Per-period external observations of the asynchronous I/O machinery:
whether the outstanding request is still `EINPROGRESS`, whether its
`aio_return` is positive, whether `aio_write` submission succeeds, and the
wall clock. -/
structure LogIo where
  inProgress : Bool
  retOk : Bool
  writeOk : Bool
  sec : Int
  usec : Int

/-- Completion-poll / decimation phase of `predict_log` (lines 324–346). -/
def logPhase1 (io : LogIo) (l : LogState) : LogState :=
  if 0 ≤ l.fildes then
    let l1 := { l with total := l.total + 1 }
    if l1.total % l1.decimation = 0 ∧ l1.pending then
      if io.inProgress then
        { l1 with skipped := true, missed := l1.missed + 1 }
      else
        let l2 := { l1 with pending := false }
        if io.retOk then l2 else { l2 with fildes := -1 }
    else l1
  else l

/-- One `predict_log` execution (lines 318–383) on a live log state: poll the
outstanding write at decimation boundaries, then, when no write is pending,
rebuild the buffer from the current filters and submit one asynchronous
write.  Returns the new state and the bytes handed to `aio_write` when a
write was submitted. -/
def stepLog (fs : List Tag) (io : LogIo) (l : LogState) : LogState × Option String :=
  let l1 := logPhase1 io l
  if 0 ≤ l1.fildes ∧ l1.pending = false then
    let bn := buildAux l1.skipped io.sec (io.usec * 1000) 0 fs l1.buffer 0
    let l2 := { l1 with buffer := bn.1, nbytes := bn.2 }
    let l3 := if io.writeOk then { l2 with pending := true } else { l2 with fildes := -1 }
    ({ l3 with skipped := false }, if io.writeOk then some (strTake bn.1 bn.2) else none)
  else (l1, none)

/-- Iterate `stepLog` over a list of per-period I/O observations, collecting
the submitted write buffers. -/
def runLog (fs : List Tag) (ios : List LogIo) (l : LogState) : LogState × List (Option String) :=
  match ios with
  | [] => (l, [])
  | io :: rest =>
    let st := stepLog fs io l
    let tl := runLog fs rest st.1
    (tl.1, st.2 :: tl.2)

/-- Combined result of one full period of the predict task. -/
structure PeriodOut where
  pred : Predictor
  log : Option LogState
  outs : List PoseOut

/-- One full period of the predict task once tracking has started: run
`predict_main`; the log codel runs exactly when main yields `arucotag_log`
(and only on a non-null log state). -/
def periodStep (cfg : Config) (calib : Calib) (inp : MainInputs) (pred : Predictor)
    (lo : Option LogState) (io : LogIo) : PeriodOut :=
  let m := predictMain cfg calib inp pred
  if m.ev = GenomEvent.log_ev then
    ⟨m.pred, lo.map (fun l => (stepLog m.pred.filters io l).1), m.outs⟩
  else
    ⟨m.pred, lo, m.outs⟩

/-- World-frame publish record built for one filter (lines 288–300):
`worldPos = W_R_B·(B_R_C·state + B_t_C) + W_t_B`, keyed by the decimal string
of the marker identifier, stamped with the sampled wall clock. -/
def pubPose (inp : MainInputs) (calib : Calib) (id : Int) (s : Vec3) : PoseOut :=
  { key := toString id
    pos := (wRotOf inp.drone).mulVec (calib.B_R_C.mulVec s + calib.B_t_C) + wPosOf inp.drone
    sec := inp.sec
    nsec := inp.usec * 1000 }

/-!  Concrete fixtures used by witnesses and counterexamples. -/

/-- A concrete Kalman-filter record (identity transition and measurement
matrices, everything else zero). -/
def fxKF : KF := ⟨0, 0, 0, 0, 1, 0, 1, 0, 0, 0⟩

/-- Concrete configuration: side length 2, period 1000 ms. -/
def fxCfg : Config := ⟨2, 1000⟩

/-- Concrete calibration: zero translation, identity rotation / intrinsics. -/
def fxCalib : Calib := ⟨0, 1, 1⟩

/-- Concrete odometry-free input record. -/
def fxInpNone : MainInputs := ⟨false, none, (fun _ => 1), 7, 9⟩

/-- Concrete reset-asserted input record. -/
def fxInpReset : MainInputs := ⟨true, none, (fun _ => 1), 7, 9⟩

/-- An uninitialized tag with identifier 5. -/
def fxTagE : Tag := ⟨5, none, fxKF⟩

/-- A tracking tag with identifier 6. -/
def fxTagT : Tag := ⟨6, some ![1, 1, 1], fxKF⟩

/-- A tracking tag with identifier 5 (to pair with the pending detection). -/
def fxTagT5 : Tag := ⟨5, some ![1, 2, 3], fxKF⟩

/-- Concrete predictor: one uninitialized and one tracking filter, one pending
detection for identifier 5. -/
def fxPred : Predictor := ⟨1, [fxTagE, fxTagT], [5], [![10, 20, 30, 0, 0, 0]]⟩

/-- Predictor whose only filter stays uninitialized (no pending detection). -/
def fxPredE : Predictor := ⟨1, [fxTagE], [], []⟩

/-- Healthy asynchronous-I/O observation: previous write complete and
successful, submission succeeds. -/
def fxGoodIo : LogIo := ⟨false, true, true, 0, 0⟩

/-- Initial live log state with decimation factor 5. -/
def fxLog0 : LogState := ⟨0, 0, 5, false, false, 0, emptyStr, 0⟩

/-- Ten healthy periods except that the write outstanding at the fifth
period's decimation poll is still in progress. -/
def fxC6Ios : List LogIo := (List.range 10).map fun k => ⟨decide (k = 4), true, true, 0, 0⟩

/-- Odometry sample exhibiting the covariance-unpacking slip: packed linear
velocity covariance `(0,0,0,0,1,0)` (only the `yz` entry set), zero angular
covariance. -/
def fxC8Drone : DroneData := ⟨0, 0, 0, 1, 0, 0, 0, ![0, 0, 0, 0, 1, 0], ![0, 0, 0, 0, 0, 0]⟩

/-- Over the field `ℚ` the explicit adjugate formula agrees with Mathlib's
matrix inverse (both send a singular matrix to `0`). -/
theorem inv3_eq_inv (A : Mat3) : inv3 A = A⁻¹ := by
  rw [inv3, Matrix.inv_def, Ring.inverse_eq_inv']

/-!  Helper lemmas shared by the claim theorems. -/

lemma predictMain_filters (cfg : Config) (calib : Calib) (inp : MainInputs)
    (pred : Predictor) (h : inp.reset = false) :
    (predictMain cfg calib inp pred).pred.filters
      = pred.filters.map fun f => (procFilter (mkCtx cfg calib inp pred) f).1 := by
  simp [predictMain, h, List.map_map, Function.comp]

lemma predictMain_nds (cfg : Config) (calib : Calib) (inp : MainInputs)
    (pred : Predictor) (h : inp.reset = false) :
    (predictMain cfg calib inp pred).pred.new_detections = [] := by
  simp [predictMain, h]

lemma predictMain_outs (cfg : Config) (calib : Calib) (inp : MainInputs)
    (pred : Predictor) (h : inp.reset = false) :
    (predictMain cfg calib inp pred).outs
      = pred.filters.filterMap fun f => (procFilter (mkCtx cfg calib inp pred) f).2 := by
  simp [predictMain, h, List.filterMap_map]
  rfl

lemma predictMain_reset (cfg : Config) (calib : Calib) (inp : MainInputs)
    (pred : Predictor) (h : inp.reset = true) :
    predictMain cfg calib inp pred = ⟨pred, [], GenomEvent.pause_wait⟩ := by
  simp [predictMain, h]

lemma predictMain_ev (cfg : Config) (calib : Calib) (inp : MainInputs)
    (pred : Predictor) (h : inp.reset = false) :
    (predictMain cfg calib inp pred).ev
      = if ((predictMain cfg calib inp pred).pred.filters.any fun f => f.state.isSome)
        then GenomEvent.log_ev else GenomEvent.pause_main := by
  simp [predictMain, h]

lemma procFilter_skip (c : Ctx) (f : Tag) (h1 : f.state = none)
    (h2 : c.nds.findIdx? (fun d => d == f.id) = none) :
    procFilter c f = (f, none) := by
  simp [procFilter, h1, h2]

lemma procFilter_init (c : Ctx) (f : Tag) (j : Nat) (h1 : f.state = none)
    (h2 : c.nds.findIdx? (fun d => d == f.id) = some j) :
    (procFilter c f).1
      = { f with state := some (transOf (c.meas.getD j 0)),
                 kf := { f.kf with statePre := transOf (c.meas.getD j 0),
                                   statePost := transOf (c.meas.getD j 0) } } := by
  simp [procFilter, h1, h2]

lemma procFilter_id (c : Ctx) (f : Tag) : ((procFilter c f).1).id = f.id := by
  cases h1 : f.state <;> cases h2 : c.nds.findIdx? (fun d => d == f.id) <;>
    simp [procFilter, h1, h2, kfPredict, kfCorrect]

lemma procFilter_snd (c : Ctx) (f : Tag) :
    (procFilter c f).2
      = ((procFilter c f).1).state.map fun s =>
          ({ key := toString f.id
             pos := c.wR.mulVec (c.bRC.mulVec s + c.bTC) + c.wT
             sec := c.sec
             nsec := c.usec * 1000 } : PoseOut) := by
  cases h1 : f.state <;> cases h2 : c.nds.findIdx? (fun d => d == f.id) <;>
    simp [procFilter, h1, h2, kfPredict, kfCorrect]

lemma procFilter_track_processCov (c : Ctx) (f : Tag) (st : Vec3)
    (h1 : f.state = some st) :
    ((procFilter c f).1).kf.processNoiseCov = c.processCov := by
  cases h2 : c.nds.findIdx? (fun d => d == f.id) <;>
    cases hn : c.nostate <;>
      simp [procFilter, h1, h2, hn, kfPredict, kfCorrect]

lemma procFilter_track_statePre (c : Ctx) (f : Tag) (st : Vec3)
    (h1 : f.state = some st) :
    ((procFilter c f).1).kf.statePre
      = f.kf.transitionMatrix.mulVec f.kf.statePost
        + (if c.nostate then f.kf.controlMatrix
           else ctrlMat c.dt (st 0) (st 1) (st 2)).mulVec c.control := by
  cases h2 : c.nds.findIdx? (fun d => d == f.id) <;>
    cases hn : c.nostate <;>
      simp [procFilter, h1, h2, hn, kfPredict, kfCorrect]

lemma procFilter_track_isSome (c : Ctx) (f : Tag) (st : Vec3)
    (h1 : f.state = some st) :
    ((procFilter c f).1).state.isSome := by
  cases h2 : c.nds.findIdx? (fun d => d == f.id) <;>
    simp [procFilter, h1, h2, kfPredict, kfCorrect]

lemma procFilter_track_measCov (c : Ctx) (f : Tag) (st : Vec3) (j : Nat)
    (h1 : f.state = some st)
    (h2 : c.nds.findIdx? (fun d => d == f.id) = some j) :
    ((procFilter c f).1).kf.measurementNoiseCov
      = measCov c.K c.len (transOf (c.meas.getD j 0)) (c.rodr (rotOf (c.meas.getD j 0))) := by
  simp [procFilter, h1, h2, kfPredict, kfCorrect]

lemma codeJ_transBlock (K R : Mat3) (len : ℚ) (t : Vec3) (r : Fin 8) (c : Fin 3) :
    codeJ K len t R r c = (jPix (hVec K R t (corner len (cIdx r))) * K) (rIdx r) c := by
  simp only [codeJ, Matrix.of_apply, jFull, Matrix.mul_apply]
  refine Finset.sum_congr rfl fun k _ => ?_
  congr 1
  simp only [jProj, Matrix.of_apply]
  rw [dif_pos (show ((embed3 c : Fin 6) : Nat) < 3 from c.isLt)]
  exact congrArg (K k) (Fin.ext rfl)

lemma strLen_append (s t : String) : strLen (s ++ t) = strLen s + strLen t := by
  cases s with
  | mk a => cases t with
    | mk b => simp [strLen, String.append]

lemma emptyStr_append (s : String) : emptyStr ++ s = s := by
  cases s with
  | mk a => simp [emptyStr, String.append]

lemma strTake_len (s : String) : strTake s (strLen s) = s := by
  cases s with
  | mk a => simp [strTake, strLen]

lemma append_emptyStr (s : String) : s ++ emptyStr = s := by
  cases s with
  | mk a => simp [emptyStr, String.append]

lemma strLen_emptyStr : strLen emptyStr = 0 := rfl

lemma buildAux_from1 (sk : Bool) (sec nsec : Int) (fs : List Tag) :
    ∀ (i : Nat) (buf : String) (n : Nat), i ≠ 0 →
    buildAux sk sec nsec i fs buf n
      = (buf ++ joinL sk sec nsec fs, n + strLen (joinL sk sec nsec fs)) := by
  induction fs with
  | nil =>
    intro i buf n hi
    simp only [buildAux, joinL]
    rw [append_emptyStr, strLen_emptyStr, Nat.add_zero]
  | cons f rest ih =>
    intro i buf n hi
    cases h : f.state with
    | none => simp [buildAux, joinL, h, ih (i+1) buf n (by omega)]
    | some s =>
      simp only [buildAux, joinL, h, if_neg hi,
        ih (i+1) _ _ (by omega)]
      rw [String.append_assoc]
      simp only [Prod.mk.injEq, strLen_append]
      exact ⟨trivial, by omega⟩

lemma buildAux_head (sk : Bool) (sec nsec : Int) (f0 : Tag) (rest : List Tag)
    (buf : String) (s : Vec3) (h : f0.state = some s) :
    buildAux sk sec nsec 0 (f0 :: rest) buf 0
      = (joinL sk sec nsec (f0 :: rest), strLen (joinL sk sec nsec (f0 :: rest))) := by
  simp only [buildAux, h, if_true]
  rw [buildAux_from1 sk sec nsec rest 1 _ _ (by omega)]
  simp only [joinL, h, Prod.mk.injEq, strLen_append]
  exact ⟨trivial, by omega⟩

lemma stepLog_pending_skip (fs : List Tag) (io : LogIo) (l : LogState)
    (hfd : 0 ≤ l.fildes) (hp : l.pending = true)
    (hm : (l.total + 1) % l.decimation = 0) (hio : io.inProgress = true) :
    stepLog fs io l
      = ({ l with total := l.total + 1, skipped := true, missed := l.missed + 1 }, none) := by
  simp [stepLog, logPhase1, hfd, hp, hm, hio]

lemma stepLog_pending_noWrite (fs : List Tag) (io : LogIo) (l : LogState)
    (hp : l.pending = true) (hio : io.inProgress = true) (hsk : l.skipped = true) :
    (stepLog fs io l).2 = none ∧ (stepLog fs io l).1.skipped = true := by
  by_cases hfd : 0 ≤ l.fildes
  · by_cases hm : (l.total + 1) % l.decimation = 0
    · simp [stepLog, logPhase1, hfd, hm, hp, hio, hsk]
    · simp [stepLog, logPhase1, hfd, hm, hp, hio, hsk]
  · simp [stepLog, logPhase1, hfd, hp, hsk]

lemma stepLog_idle_write (fs : List Tag) (io : LogIo) (l : LogState)
    (f0 : Tag) (rest : List Tag) (s : Vec3)
    (hfs : fs = f0 :: rest) (h0 : f0.state = some s) (hp : l.pending = false)
    (hfd : 0 ≤ l.fildes) (hw : io.writeOk = true) :
    stepLog fs io l
      = ({ l with
            total := l.total + 1
            pending := true
            skipped := false
            buffer := joinL l.skipped io.sec (io.usec * 1000) fs
            nbytes := strLen (joinL l.skipped io.sec (io.usec * 1000) fs) },
         some (joinL l.skipped io.sec (io.usec * 1000) fs)) := by
  subst hfs
  have hb := buildAux_head l.skipped io.sec (io.usec * 1000) f0 rest l.buffer s h0
  simp [stepLog, logPhase1, hp, hfd, hw, hb, strTake_len]

lemma stepLog_good_busy (fs : List Tag) (io : LogIo) (fd : Int) (t m nb : Nat) (b : String)
    (hfd : 0 ≤ fd) (h1 : io.inProgress = false) (hm : (t + 1) % 5 ≠ 0) :
    stepLog fs io ⟨fd, t, 5, true, false, m, b, nb⟩
      = (⟨fd, t + 1, 5, true, false, m, b, nb⟩, none) := by
  simp [stepLog, logPhase1, hfd, hm, h1]

lemma stepLog_good_flush (fs : List Tag) (io : LogIo) (fd : Int) (t m nb : Nat) (b : String)
    (hfd : 0 ≤ fd) (h1 : io.inProgress = false) (h2 : io.retOk = true)
    (h3 : io.writeOk = true) (hm : (t + 1) % 5 = 0) :
    stepLog fs io ⟨fd, t, 5, true, false, m, b, nb⟩
      = (⟨fd, t + 1, 5, true, false, m,
            (buildAux false io.sec (io.usec * 1000) 0 fs b 0).1,
            (buildAux false io.sec (io.usec * 1000) 0 fs b 0).2⟩,
         some (strTake (buildAux false io.sec (io.usec * 1000) 0 fs b 0).1
                 (buildAux false io.sec (io.usec * 1000) 0 fs b 0).2)) := by
  simp [stepLog, logPhase1, hfd, hm, h1, h2, h3]

lemma stepLog_good_start (fs : List Tag) (io : LogIo) (fd : Int) (t m nb : Nat)
    (b : String) (sk : Bool) (hfd : 0 ≤ fd) (h3 : io.writeOk = true) :
    stepLog fs io ⟨fd, t, 5, false, sk, m, b, nb⟩
      = (⟨fd, t + 1, 5, true, false, m,
            (buildAux sk io.sec (io.usec * 1000) 0 fs b 0).1,
            (buildAux sk io.sec (io.usec * 1000) 0 fs b 0).2⟩,
         some (strTake (buildAux sk io.sec (io.usec * 1000) 0 fs b 0).1
                 (buildAux sk io.sec (io.usec * 1000) 0 fs b 0).2)) := by
  simp [stepLog, logPhase1, hfd, h3]

lemma runLog_steady (fs : List Tag) (fd : Int) (hfd : 0 ≤ fd) :
    ∀ (ios : List LogIo),
    (∀ io ∈ ios, io.inProgress = false ∧ io.retOk = true ∧ io.writeOk = true) →
    ∀ (t m nb : Nat) (b : String),
    ((runLog fs ios ⟨fd, t, 5, true, false, m, b, nb⟩).2).map Option.isSome
      = (List.range ios.length).map fun k => decide ((t + 1 + k) % 5 = 0) := by
  intro ios
  induction ios with
  | nil => intro _ t m nb b; simp [runLog]
  | cons io rest ih =>
    intro h t m nb b
    obtain ⟨h1, h2, h3⟩ := h io (List.mem_cons_self io rest)
    have hrest := fun io hio => h io (List.mem_cons_of_mem _ hio)
    have hshift : ((List.range rest.length).map Nat.succ).map
          (fun k => decide ((t + 1 + k) % 5 = 0))
        = (List.range rest.length).map fun k => decide ((t + 2 + k) % 5 = 0) := by
      rw [List.map_map]
      refine List.map_congr_left fun k _ => ?_
      exact decide_eq_decide.mpr (by omega)
    by_cases hm : (t + 1) % 5 = 0
    · simp only [runLog, stepLog_good_flush fs io fd t m nb b hfd h1 h2 h3 hm]
      rw [List.length_cons, List.range_succ_eq_map, List.map_cons, List.map_cons,
        ih hrest (t+1) m _ _, ← hshift, List.map_map]
      simp [hm]
    · simp only [runLog, stepLog_good_busy fs io fd t m nb b hfd h1 hm]
      rw [List.length_cons, List.range_succ_eq_map, List.map_cons, List.map_cons,
        ih hrest (t+1) m _ _, ← hshift, List.map_map]
      simp [hm]


/-- C1 (counterexample): with no odometry sample, the world-to-body rotation
used for publishing is the zero matrix (`Mat::zeros(3,3)`, line 129), not the
identity rotation stated by the claim. -/
theorem c1_cex : wRotOf none = 0 ∧ wRotOf none ≠ (1 : Mat3) := by
  refine ⟨rfl, fun h => ?_⟩
  have h00 := congrFun (congrFun h 0) 0
  simp [wRotOf, Matrix.one_apply, Matrix.zero_apply] at h00

/-- C1 (amended): for every period without an odometry sample, the control
input applied to every tracking filter is the zero 6-twist, the process
covariance is the fixed default diagonal with entries 1e-3, and the
world-to-body transform used for publishing falls back to the zero 3×3
matrix and zero translation. -/
theorem c1_amended (cfg : Config) (calib : Calib) (inp : MainInputs) (pred : Predictor)
    (hr : inp.reset = false) (hd : inp.drone = none) :
    ctrlOf pred inp.drone = 0
    ∧ procCovOf inp.drone = Matrix.diagonal (fun _ => (1 : ℚ)/1000)
    ∧ wRotOf inp.drone = 0
    ∧ wPosOf inp.drone = 0
    ∧ (predictMain cfg calib inp pred).pred.filters
        = pred.filters.map (fun f => (procFilter (mkCtx cfg calib inp pred) f).1)
    ∧ (∀ (f : Tag) (st : Vec3), f.state = some st →
        ((procFilter (mkCtx cfg calib inp pred) f).1).kf.processNoiseCov
            = Matrix.diagonal (fun _ => (1 : ℚ)/1000)
        ∧ ((procFilter (mkCtx cfg calib inp pred) f).1).kf.statePre
            = f.kf.transitionMatrix.mulVec f.kf.statePost) := by
  refine ⟨?_, ?_, ?_, ?_, predictMain_filters cfg calib inp pred hr, fun f st hst => ?_⟩
  · rw [hd]; rfl
  · rw [hd]; rfl
  · rw [hd]; rfl
  · rw [hd]; rfl
  · constructor
    · rw [procFilter_track_processCov (mkCtx cfg calib inp pred) f st hst]
      show (mkCtx cfg calib inp pred).processCov = _
      simp [mkCtx, hd, procCovOf]
    · rw [procFilter_track_statePre (mkCtx cfg calib inp pred) f st hst]
      have hns : (mkCtx cfg calib inp pred).nostate = true := by simp [mkCtx, hd]
      rw [hns, if_pos rfl]
      have hc : (mkCtx cfg calib inp pred).control = 0 := by simp [mkCtx, hd, ctrlOf]
      rw [hc, Matrix.mulVec_zero, add_zero]

/-- C1 (witness): the amended statement instantiated at the concrete
odometry-free fixture. -/
theorem c1_w :
    fxInpNone.reset = false ∧ fxInpNone.drone = none
    ∧ ctrlOf fxPred fxInpNone.drone = 0
    ∧ ((procFilter (mkCtx fxCfg fxCalib fxInpNone fxPred) fxTagT).1).kf.processNoiseCov
        = Matrix.diagonal (fun _ => (1 : ℚ)/1000) :=
  ⟨rfl, rfl, (c1_amended fxCfg fxCalib fxInpNone fxPred rfl rfl).1,
    ((c1_amended fxCfg fxCalib fxInpNone fxPred rfl rfl).2.2.2.2.2 fxTagT ![1, 1, 1] rfl).1⟩

/-- C2: a filter's state machine per period — the per-period filter update is
the map of `procFilter`; an uninitialized filter whose identifier is found in
the new-detections list has its state, `statePre` and `statePost` set to the
measured camera-frame position with every other Kalman-filter field untouched
(no predict or correct step); an uninitialized filter without a pending
detection is returned entirely unchanged; and an initialized filter never
becomes uninitialized again, so the transition happens exactly at the first
period in which the identifier appears. -/
theorem c2_first_detection :
    (∀ (cfg : Config) (calib : Calib) (inp : MainInputs) (pred : Predictor),
      inp.reset = false →
      (predictMain cfg calib inp pred).pred.filters
        = pred.filters.map fun f => (procFilter (mkCtx cfg calib inp pred) f).1)
    ∧ (∀ (c : Ctx) (f : Tag) (j : Nat), f.state = none →
        c.nds.findIdx? (fun d => d == f.id) = some j →
        (procFilter c f).1
          = { f with state := some (transOf (c.meas.getD j 0)),
                     kf := { f.kf with statePre := transOf (c.meas.getD j 0),
                                       statePost := transOf (c.meas.getD j 0) } })
    ∧ (∀ (c : Ctx) (f : Tag), f.state = none →
        c.nds.findIdx? (fun d => d == f.id) = none → procFilter c f = (f, none))
    ∧ (∀ (c : Ctx) (f : Tag) (st : Vec3), f.state = some st →
        ((procFilter c f).1).state.isSome) :=
  ⟨predictMain_filters, procFilter_init, procFilter_skip, procFilter_track_isSome⟩

/-- C2 (witness): at the concrete fixture the uninitialized filter with
identifier 5 is initialized to the translation part of the pending
measurement. -/
theorem c2_w :
    fxTagE.state = none
    ∧ (mkCtx fxCfg fxCalib fxInpNone fxPred).nds.findIdx? (fun d => d == fxTagE.id)
        = some 0
    ∧ (procFilter (mkCtx fxCfg fxCalib fxInpNone fxPred) fxTagE).1
        = { fxTagE with
              state := some (transOf (((mkCtx fxCfg fxCalib fxInpNone fxPred).meas).getD 0 0))
              kf := { fxTagE.kf with
                        statePre := transOf (((mkCtx fxCfg fxCalib fxInpNone fxPred).meas).getD 0 0)
                        statePost := transOf (((mkCtx fxCfg fxCalib fxInpNone fxPred).meas).getD 0 0) } } :=
  ⟨rfl, rfl, c2_first_detection.2.1 (mkCtx fxCfg fxCalib fxInpNone fxPred) fxTagE 0 rfl rfl⟩

/-- C3: whenever a tracking filter is corrected with a new detection, the
measurement covariance installed on the filter equals
`σ_p² · (Jᵀ·J)⁻¹` with `σ_p = 3`, where `J` is the 8×3 matrix whose rows
`2i, 2i+1` are the translational 3 columns of corner `i`'s chain-rule
Jacobian — equivalently (second conjunct) the product of the pixelization
Jacobian at that corner's projection with the intrinsic matrix `K` — all
recomputed from the current measured camera-frame pose. -/
theorem c3_meas_cov (c : Ctx) (f : Tag) (st : Vec3) (j : Nat)
    (h1 : f.state = some st)
    (h2 : c.nds.findIdx? (fun d => d == f.id) = some j) :
    ((procFilter c f).1).kf.measurementNoiseCov
      = (3 : ℚ)^2 •
          (((codeJ c.K c.len (transOf (c.meas.getD j 0)) (c.rodr (rotOf (c.meas.getD j 0))))ᵀ
            * codeJ c.K c.len (transOf (c.meas.getD j 0)) (c.rodr (rotOf (c.meas.getD j 0))))⁻¹)
    ∧ (∀ (r : Fin 8) (cc : Fin 3),
        codeJ c.K c.len (transOf (c.meas.getD j 0)) (c.rodr (rotOf (c.meas.getD j 0))) r cc
          = (jPix (hVec c.K (c.rodr (rotOf (c.meas.getD j 0))) (transOf (c.meas.getD j 0))
                (corner c.len (cIdx r))) * c.K) (rIdx r) cc) := by
  constructor
  · rw [procFilter_track_measCov c f st j h1 h2, measCov, inv3_eq_inv]
    norm_num
  · intro r cc
    exact codeJ_transBlock c.K (c.rodr (rotOf (c.meas.getD j 0))) c.len
      (transOf (c.meas.getD j 0)) r cc

/-- C3 (witness): the correction-covariance equation instantiated at the
concrete tracking filter with identifier 5 and the concrete pending
measurement. -/
theorem c3_w :
    fxTagT5.state = some ![1, 2, 3]
    ∧ ((procFilter (mkCtx fxCfg fxCalib fxInpNone fxPred) fxTagT5).1).kf.measurementNoiseCov
        = (3 : ℚ)^2 •
            (((codeJ (mkCtx fxCfg fxCalib fxInpNone fxPred).K
                 (mkCtx fxCfg fxCalib fxInpNone fxPred).len
                 (transOf ((mkCtx fxCfg fxCalib fxInpNone fxPred).meas.getD 0 0))
                 ((mkCtx fxCfg fxCalib fxInpNone fxPred).rodr
                    (rotOf ((mkCtx fxCfg fxCalib fxInpNone fxPred).meas.getD 0 0))))ᵀ
              * codeJ (mkCtx fxCfg fxCalib fxInpNone fxPred).K
                 (mkCtx fxCfg fxCalib fxInpNone fxPred).len
                 (transOf ((mkCtx fxCfg fxCalib fxInpNone fxPred).meas.getD 0 0))
                 ((mkCtx fxCfg fxCalib fxInpNone fxPred).rodr
                    (rotOf ((mkCtx fxCfg fxCalib fxInpNone fxPred).meas.getD 0 0))))⁻¹) :=
  ⟨rfl, (c3_meas_cov (mkCtx fxCfg fxCalib fxInpNone fxPred) fxTagT5 ![1, 2, 3] 0 rfl rfl).1⟩


/-- C4: in every non-reset period, the published batch is exactly the
world-frame affine image of the non-empty filter states — a pose is emitted
for a filter if and only if its state is non-empty, its position is
`R_wb·(R_bc·state + t_bc) + t_wb`, and it is keyed by the identifier
string. -/
theorem c4_publish (cfg : Config) (calib : Calib) (inp : MainInputs) (pred : Predictor)
    (hr : inp.reset = false) :
    (predictMain cfg calib inp pred).outs
        = (predictMain cfg calib inp pred).pred.filters.filterMap
            (fun f => f.state.map fun s => pubPose inp calib f.id s)
    ∧ (∀ f ∈ (predictMain cfg calib inp pred).pred.filters, ∀ s : Vec3,
        f.state = some s →
        pubPose inp calib f.id s ∈ (predictMain cfg calib inp pred).outs)
    ∧ (∀ e ∈ (predictMain cfg calib inp pred).outs,
        ∃ f ∈ (predictMain cfg calib inp pred).pred.filters, ∃ s : Vec3,
          f.state = some s ∧ e = pubPose inp calib f.id s) := by
  have h1 : (predictMain cfg calib inp pred).outs
      = (predictMain cfg calib inp pred).pred.filters.filterMap
          (fun f => f.state.map fun s => pubPose inp calib f.id s) := by
    rw [predictMain_outs cfg calib inp pred hr, predictMain_filters cfg calib inp pred hr,
      List.filterMap_map]
    have hfun : (fun f => (procFilter (mkCtx cfg calib inp pred) f).2)
        = (fun f' : Tag => f'.state.map fun s => pubPose inp calib f'.id s)
            ∘ (fun f => (procFilter (mkCtx cfg calib inp pred) f).1) := by
      funext f
      simp only [Function.comp]
      rw [procFilter_snd, procFilter_id]
      rfl
    rw [hfun]
  refine ⟨h1, ?_, ?_⟩
  · intro f hf s hs
    rw [h1]
    exact List.mem_filterMap.mpr ⟨f, hf, by rw [hs]; rfl⟩
  · intro e he
    rw [h1] at he
    obtain ⟨f, hf, hfe⟩ := List.mem_filterMap.mp he
    cases hfs : f.state with
    | none => rw [hfs] at hfe; simp at hfe
    | some s =>
      rw [hfs] at hfe
      simp only [Option.map_some', Option.some.injEq] at hfe
      exact ⟨f, hf, s, hfs, hfe.symm⟩

/-- C4 (witness): the publish characterization instantiated at the concrete
fixture (one filter being initialized, one tracking). -/
theorem c4_w :
    fxInpNone.reset = false
    ∧ (predictMain fxCfg fxCalib fxInpNone fxPred).outs
        = (predictMain fxCfg fxCalib fxInpNone fxPred).pred.filters.filterMap
            (fun f => f.state.map fun s => pubPose fxInpNone fxCalib f.id s) :=
  ⟨rfl, (c4_publish fxCfg fxCalib fxInpNone fxPred rfl).1⟩

/-- C5 (counterexample): with decimation factor 5, a live log, a non-empty
filter and healthy I/O, the first five logged periods issue TWO writes
(periods 1 and 5), not exactly one — the submission block at line 347 is
outside the decimation test, so an extra write is issued on the very first
period. -/
theorem c5_cex :
    ((runLog (fxTagT :: []) (List.replicate 5 fxGoodIo) fxLog0).2).map Option.isSome
      = (true :: false :: false :: false :: true :: []) := by
  rfl

/-- C5 (amended): with logging enabled, decimation factor N = 5, at least one
non-empty filter and no back-pressure, one write is issued at the very first
logged period, and from then on exactly one write is issued every 5 logged
periods (exactly at the cycles whose total counter is a multiple of 5). -/
theorem c5_amended (fs : List Tag) (ios : List LogIo) (fd : Int)
    (m nb : Nat) (b : String) (sk : Bool)
    (hfd : 0 ≤ fd)
    (hne : fs.any (fun f => f.state.isSome) = true)
    (hio : ∀ io ∈ ios, io.inProgress = false ∧ io.retOk = true ∧ io.writeOk = true) :
    ((runLog fs ios ⟨fd, 0, 5, false, sk, m, b, nb⟩).2).map Option.isSome
      = (List.range ios.length).map fun k => decide (k = 0 ∨ (k + 1) % 5 = 0) := by
  cases ios with
  | nil => simp [runLog]
  | cons io rest =>
    obtain ⟨h1, h2, h3⟩ := hio io (List.mem_cons_self io rest)
    have hrest := fun io hio2 => hio io (List.mem_cons_of_mem _ hio2)
    simp only [runLog, stepLog_good_start fs io fd 0 m nb b sk hfd h3]
    rw [List.length_cons, List.range_succ_eq_map, List.map_cons, List.map_cons,
      runLog_steady fs fd hfd rest hrest 1 m _ _, List.map_map]
    congr 1
    refine List.map_congr_left fun k _ => ?_
    simp only [Function.comp]
    exact decide_eq_decide.mpr (by omega)

/-- C5 (witness): the amended issuance pattern instantiated on a concrete
three-period healthy run. -/
theorem c5_w :
    (0 : Int) ≤ 0
    ∧ ((fxTagT :: []).any (fun f => f.state.isSome) = true)
    ∧ ((runLog (fxTagT :: []) (List.replicate 3 fxGoodIo)
          ⟨0, 0, 5, false, false, 0, emptyStr, 0⟩).2).map Option.isSome
        = (List.range 3).map fun k => decide (k = 0 ∨ (k + 1) % 5 = 0) :=
  ⟨le_refl 0, rfl,
    c5_amended (fxTagT :: []) (List.replicate 3 fxGoodIo) 0 0 0 emptyStr false
      (le_refl 0) rfl
      (fun io hio => by rw [List.eq_of_mem_replicate hio]; exact ⟨rfl, rfl, rfl⟩)⟩


/-- C6 (counterexample): in a ten-period run whose first stored filter has
empty state (identifier 5 never detected) and whose second filter is
tracking, the write skipped at period 5 increments the missed counter, but
the next successfully issued write (period 10) starts with the stale first
line left in the persistent buffer — its first character is not a blank
line — because the `strcpy` rebuild only happens at loop index 0. -/
theorem c6_cex :
    ((runLog (fxTagE :: fxTagT :: []) fxC6Ios fxLog0).2).getD 9 none
        = some (logLine 0 0 6 1 ![1, 1, 1] ++ nlStr)
    ∧ (runLog (fxTagE :: fxTagT :: []) fxC6Ios fxLog0).1.missed = 1
    ∧ strTake (logLine 0 0 6 1 ![1, 1, 1] ++ nlStr) 1 ≠ nlStr := by
  refine ⟨by rfl, by rfl, by decide⟩

/-- C6 (amended): when the outstanding write is still in progress at a
decimation-eligible cycle, that cycle's write is skipped without blocking,
the missed counter increments by exactly 1 and the skip flag is set; the
skip flag survives further non-writing cycles; and the next successfully
issued write begins with a single blank line followed by the per-filter
lines, provided the first stored filter has non-empty state (the buffer
rebuild overwrites the persistent buffer only at storage index 0). -/
theorem c6_amended :
    (∀ (fs : List Tag) (io : LogIo) (l : LogState),
        0 ≤ l.fildes → l.pending = true → (l.total + 1) % l.decimation = 0 →
        io.inProgress = true →
        stepLog fs io l
          = ({ l with total := l.total + 1, skipped := true, missed := l.missed + 1 }, none))
    ∧ (∀ (fs : List Tag) (io : LogIo) (l : LogState),
        l.pending = true → io.inProgress = true → l.skipped = true →
        (stepLog fs io l).2 = none ∧ (stepLog fs io l).1.skipped = true)
    ∧ (∀ (fs : List Tag) (io : LogIo) (l : LogState) (f0 : Tag) (rest : List Tag) (s : Vec3),
        fs = f0 :: rest → f0.state = some s → l.skipped = true → l.pending = false →
        0 ≤ l.fildes → io.writeOk = true →
        (stepLog fs io l).2
          = some ((nlStr ++ logLine io.sec (io.usec * 1000) f0.id 1 s)
              ++ joinL true io.sec (io.usec * 1000) rest)) := by
  refine ⟨stepLog_pending_skip, stepLog_pending_noWrite, ?_⟩
  intro fs io l f0 rest s hfs h0 hsk hp hfd hw
  subst hfs
  rw [stepLog_idle_write _ io l f0 rest s rfl h0 hp hfd hw, hsk]
  simp [joinL, h0]

/-- C6 (witness): the three amended conjuncts instantiated on concrete
states — a skipped eligible cycle and the blank-prefixed follow-up write. -/
theorem c6_w :
    stepLog (fxTagT :: []) ⟨true, true, true, 0, 0⟩ ⟨0, 4, 5, true, false, 0, emptyStr, 0⟩
        = (⟨0, 5, 5, true, true, 1, emptyStr, 0⟩, none)
    ∧ (stepLog (fxTagT :: []) fxGoodIo ⟨0, 0, 5, false, true, 1, emptyStr, 0⟩).2
        = some ((nlStr ++ logLine 0 0 6 1 ![1, 1, 1]) ++ joinL true 0 0 ([] : List Tag)) :=
  ⟨c6_amended.1 (fxTagT :: []) ⟨true, true, true, 0, 0⟩ ⟨0, 4, 5, true, false, 0, emptyStr, 0⟩
      (le_refl 0) rfl rfl rfl,
   c6_amended.2.2 (fxTagT :: []) fxGoodIo ⟨0, 0, 5, false, true, 1, emptyStr, 0⟩
      fxTagT [] ![1, 1, 1] rfl rfl rfl rfl (le_refl 0) rfl⟩

/-- C7: when the reset signal is asserted, the period leaves the predictor
(all filter states and pending detections) and the log state entirely
unchanged and publishes nothing — the reset test at line 121 precedes every
filter mutation, and `predict_wait` (the codel run while paused) never
touches the filters, the detections or the log. -/
theorem c7_reset (cfg : Config) (calib : Calib) (inp : MainInputs) (pred : Predictor)
    (lo : Option LogState) (io : LogIo) (h : inp.reset = true) :
    (periodStep cfg calib inp pred lo io).pred = pred
    ∧ (periodStep cfg calib inp pred lo io).log = lo
    ∧ (periodStep cfg calib inp pred lo io).outs = []
    ∧ (∀ (tr : TrigO) (extr : Option ExtrData) (cal : Calib) (pr : Predictor) (r : Bool),
        ((predictWait tr extr cal pr r).pred).filters = pr.filters
        ∧ ((predictWait tr extr cal pr r).pred).new_detections = pr.new_detections) := by
  refine ⟨?_, ?_, ?_, ?_⟩
  · simp [periodStep, predictMain_reset cfg calib inp pred h]
  · simp [periodStep, predictMain_reset cfg calib inp pred h]
  · simp [periodStep, predictMain_reset cfg calib inp pred h]
  · intro tr extr cal pr r
    cases extr with
    | none => exact ⟨rfl, rfl⟩
    | some e =>
      by_cases hn : pr.new_detections.length ≠ 0
      · simp [predictWait, hn]
      · simp [predictWait, hn]

/-- C7 (witness): the reset period instantiated at the concrete fixture. -/
theorem c7_w :
    fxInpReset.reset = true
    ∧ (periodStep fxCfg fxCalib fxInpReset fxPred (some fxLog0) fxGoodIo).pred = fxPred
    ∧ (periodStep fxCfg fxCalib fxInpReset fxPred (some fxLog0) fxGoodIo).log = some fxLog0 :=
  ⟨rfl, (c7_reset fxCfg fxCalib fxInpReset fxPred (some fxLog0) fxGoodIo rfl).1,
    (c7_reset fxCfg fxCalib fxInpReset fxPred (some fxLog0) fxGoodIo rfl).2.1⟩


/-- C8: the process covariance built from the odometry covariances is NOT the
symmetric unpacking — the source writes `vc[2]` at entry (1,2) where the
packed layout requires `vc[4]` (line 179), so the result is asymmetric: at
the exhibited input entry (1,2) is 0 while entry (2,1) is 1, and the matrix
differs from the sum of the symmetric unpackings the claim describes. -/
theorem c8_asym :
    procCovOf (some fxC8Drone) 1 2 = 0
    ∧ procCovOf (some fxC8Drone) 2 1 = 1
    ∧ procCovOf (some fxC8Drone)
        ≠ symUnpack fxC8Drone.vel_cov + symUnpack fxC8Drone.avel_cov := by
  refine ⟨?_, ?_, fun h => ?_⟩
  · simp [procCovOf, unpackCode, fxC8Drone, Matrix.add_apply,
      Matrix.cons_val_two, Matrix.cons_val_three, Matrix.cons_val_four,
      Matrix.vecHead, Matrix.vecTail]
  · simp [procCovOf, unpackCode, fxC8Drone, Matrix.add_apply,
      Matrix.cons_val_two, Matrix.cons_val_three, Matrix.cons_val_four,
      Matrix.vecHead, Matrix.vecTail]
  · have h12 := congrFun (congrFun h 1) 2
    simp [procCovOf, unpackCode, symUnpack, fxC8Drone, Matrix.add_apply,
      Matrix.cons_val_two, Matrix.cons_val_three, Matrix.cons_val_four,
      Matrix.vecHead, Matrix.vecTail] at h12

/-- C9 (counterexample): a write issued over the filter list
`[id 2 (tracking), id 1 (tracking)]` serializes the line of marker 2 before
the line of marker 1 — lines follow filter storage (creation) order, which
is not marker-identifier order. -/
theorem c9_cex :
    (stepLog (⟨2, some ![0, 0, 0], fxKF⟩ :: ⟨1, some ![0, 0, 0], fxKF⟩ :: [])
        fxGoodIo fxLog0).2
      = some (logLine 0 0 2 1 ![0, 0, 0] ++ logLine 0 0 1 1 ![0, 0, 0])
    ∧ logLine 0 0 2 1 ![0, 0, 0] ++ logLine 0 0 1 1 ![0, 0, 0]
        ≠ logLine 0 0 1 1 ![0, 0, 0] ++ logLine 0 0 2 1 ![0, 0, 0] := by
  refine ⟨by rfl, by decide⟩

/-- C9 (amended): every issued log write whose skip flag is clear and whose
first stored filter is non-empty consists of exactly one line
`<sec> <nsec> <id> <flag> <x> <y> <z>` per currently non-empty filter, in
filter storage (creation) order — not sorted by marker identifier — starting
with the first stored filter's line. -/
theorem c9_amended (fs : List Tag) (io : LogIo) (l : LogState)
    (f0 : Tag) (rest : List Tag) (s : Vec3)
    (hfs : fs = f0 :: rest) (h0 : f0.state = some s) (hsk : l.skipped = false)
    (hp : l.pending = false) (hfd : 0 ≤ l.fildes) (hw : io.writeOk = true) :
    (stepLog fs io l).2 = some (joinL false io.sec (io.usec * 1000) fs)
    ∧ joinL false io.sec (io.usec * 1000) fs
        = logLine io.sec (io.usec * 1000) f0.id 1 s
            ++ joinL false io.sec (io.usec * 1000) rest := by
  subst hfs
  constructor
  · rw [stepLog_idle_write _ io l f0 rest s rfl h0 hp hfd hw, hsk]
  · simp only [joinL, h0, if_neg (Bool.false_ne_true)]
    rw [emptyStr_append]

/-- C9 (witness): the amended write-content characterization instantiated at
the concrete single-filter fixture. -/
theorem c9_w :
    (stepLog (fxTagT :: []) fxGoodIo fxLog0).2
        = some (joinL false 0 0 (fxTagT :: []))
    ∧ joinL false 0 0 (fxTagT :: [])
        = logLine 0 0 6 1 ![1, 1, 1] ++ joinL false 0 0 ([] : List Tag) :=
  c9_amended (fxTagT :: []) fxGoodIo fxLog0 fxTagT [] ![1, 1, 1] rfl rfl rfl rfl
    (le_refl 0) rfl

/-- C10: at the end of every non-reset period the pending new-detections list
is empty; a reset period leaves the whole predictor (detections included)
unchanged; and in a non-reset period in which every processed filter state is
still empty the main codel yields `arucotag_pause_main`, so the log codel is
not reached and the log state (total counter included) is unchanged. -/
theorem c10_invariants (cfg : Config) (calib : Calib) (inp : MainInputs) (pred : Predictor)
    (lo : Option LogState) (io : LogIo) :
    (inp.reset = false → (predictMain cfg calib inp pred).pred.new_detections = [])
    ∧ (inp.reset = true → (predictMain cfg calib inp pred).pred = pred)
    ∧ (inp.reset = false →
        ((predictMain cfg calib inp pred).pred.filters.all fun f => f.state.isNone) = true →
        (predictMain cfg calib inp pred).ev = GenomEvent.pause_main
        ∧ (periodStep cfg calib inp pred lo io).log = lo) := by
  refine ⟨fun h => predictMain_nds cfg calib inp pred h, ?_, ?_⟩
  · intro h
    rw [predictMain_reset cfg calib inp pred h]
  · intro h hall
    have hany : ((predictMain cfg calib inp pred).pred.filters.any
        fun f => f.state.isSome) = false := by
      rw [List.any_eq_false]
      intro f hf
      have := List.all_eq_true.mp hall f hf
      simp only [Option.isNone_iff_eq_none] at this
      simp [this]
    have hev : (predictMain cfg calib inp pred).ev = GenomEvent.pause_main := by
      rw [predictMain_ev cfg calib inp pred h, hany]
      rfl
    exact ⟨hev, by simp [periodStep, hev]⟩

/-- C10 (witness): the invariants instantiated at a concrete predictor whose
only filter remains uninitialized (no pending detection), so the period ends
in `arucotag_pause_main` with the log state untouched. -/
theorem c10_w :
    fxInpNone.reset = false
    ∧ (predictMain fxCfg fxCalib fxInpNone fxPredE).pred.new_detections = []
    ∧ ((predictMain fxCfg fxCalib fxInpNone fxPredE).pred.filters.all
        fun f => f.state.isNone) = true
    ∧ (predictMain fxCfg fxCalib fxInpNone fxPredE).ev = GenomEvent.pause_main
    ∧ (periodStep fxCfg fxCalib fxInpNone fxPredE (some fxLog0) fxGoodIo).log = some fxLog0 :=
  ⟨rfl,
   (c10_invariants fxCfg fxCalib fxInpNone fxPredE (some fxLog0) fxGoodIo).1 rfl,
   rfl,
   ((c10_invariants fxCfg fxCalib fxInpNone fxPredE (some fxLog0) fxGoodIo).2.2 rfl rfl).1,
   ((c10_invariants fxCfg fxCalib fxInpNone fxPredE (some fxLog0) fxGoodIo).2.2 rfl rfl).2⟩
